import Mathlib

/-!
Verification of the orders-project repository: a shallow embedding of the
Express server (custom server file: routes POST /api/order, GET /api/orders,
DELETE /api/orders over an in-memory `orders` array) and the MobX client
store (src/stores/OrderStore.ts), with theorems settling the frozen claims.

Modelling conventions:
* JavaScript numbers are modelled as `Int` (the claims never depend on
  fractional values or NaN).
* Clock readings (`Date.now()`, `new Date().toISOString()`) are modelled as
  natural-number milliseconds supplied by an environment record per request;
  the ISO rendering of a clock reading is order-isomorphic to the reading.
* `Math.random().toString(36).substr(2, 9)` is modelled as an environment
  supplied string.
* A parsed JSON request body is a record of optional fields (absent field =
  `none`); JavaScript truthiness of a field is `jsTruthyStr` / `jsTruthyNum`.
* `fetch` outcomes on the client are modelled by `FetchOutcome`: the fetch
  itself may throw, otherwise it yields a response with an `ok` flag whose
  `.json()` either throws (`none`) or yields the typed payload.
-/

namespace OrdersProject

/-! Data model, from src/stores/OrderStore.ts -/

inductive Symbol
  | NIFTY
  | BANKNIFTY
  | RELIANCE
  | TCS
deriving DecidableEq

inductive OrderType
  | Market
  | Limit
  | StopLimit
deriving DecidableEq

inductive OrderSide
  | Buy
  | Sell
deriving DecidableEq

/-- String rendering of a `Symbol`, as it appears on the wire. -/
def Symbol.str : Symbol → String
  | .NIFTY => "NIFTY"
  | .BANKNIFTY => "BANKNIFTY"
  | .RELIANCE => "RELIANCE"
  | .TCS => "TCS"

/-- String rendering of an `OrderType`, as it appears on the wire
(the source union type is "Market" | "Limit" | "Stop Limit"). -/
def OrderType.str : OrderType → String
  | .Market => "Market"
  | .Limit => "Limit"
  | .StopLimit => "Stop Limit"

/-- String rendering of an `OrderSide`, as it appears on the wire. -/
def OrderSide.str : OrderSide → String
  | .Buy => "Buy"
  | .Sell => "Sell"

/-- A stored order record, the shape the server keeps in its `orders` array
and returns to clients: the interface `Order` of OrderStore.ts.  String
fields hold wire strings; `timestamp` is the server clock reading in
milliseconds (the ISO string is its order-isomorphic rendering). -/
structure Order where
  id : String
  symbol : String
  orderType : String
  quantity : Int
  price : Option Int
  stopPrice : Option Int
  side : String
  timestamp : Nat
deriving DecidableEq

/-! Server embedding, from the custom Express server file. -/

/-- A parsed JSON request body for POST /api/order.  Every field is optional:
`none` means the key is absent from the JSON object.  `id` and `timestamp`
may be supplied by a (possibly dishonest) client. -/
structure ReqBody where
  id : Option String := none
  symbol : Option String := none
  orderType : Option String := none
  quantity : Option Int := none
  price : Option Int := none
  stopPrice : Option Int := none
  side : Option String := none
  timestamp : Option Nat := none
deriving DecidableEq

/-- JavaScript truthiness of an optional string field: absent and "" are
falsy. -/
def jsTruthyStr : Option String → Bool
  | none => false
  | some s => s != ""

/-- JavaScript truthiness of an optional number field: absent and 0 are
falsy. -/
def jsTruthyNum : Option Int → Bool
  | none => false
  | some n => n != 0

/-- The server validation test, mirroring
`!orderData.symbol || !orderData.orderType || !orderData.quantity || !orderData.side`. -/
def missingRequired (body : ReqBody) : Bool :=
  !jsTruthyStr body.symbol || !jsTruthyStr body.orderType ||
    !jsTruthyNum body.quantity || !jsTruthyStr body.side

/-- Per-request environment: the values the handler draws from the outside
world.  `nowMs` is the `Date.now()` reading inside `generateId`, `rand` the
random suffix, `tsMs` the clock reading for the `timestamp` field. -/
structure Env where
  nowMs : Nat
  rand : String
  tsMs : Nat
deriving DecidableEq

/-- The id generator: `order_` + Date.now() + `_` + random suffix. -/
def generateId (nowMs : Nat) (rand : String) : String :=
  "order_" ++ toString nowMs ++ "_" ++ rand

/-- Building the stored order, mirroring the object literal
`{ id: generateId(), ...orderData, timestamp: new Date().toISOString() }`:
the spread copies every property present on the body, so a body `id`
overwrites the generated one, while `timestamp` is written after the spread
and therefore always holds the server clock reading.  The `getD` defaults
for `symbol`, `orderType`, `quantity`, `side` are only reachable on bodies
that fail validation (the handler never builds an order for those). -/
def mkOrder (body : ReqBody) (genId : String) (tsMs : Nat) : Order :=
  { id := body.id.getD genId
  , symbol := body.symbol.getD ""
  , orderType := body.orderType.getD ""
  , quantity := body.quantity.getD 0
  , price := body.price
  , stopPrice := body.stopPrice
  , side := body.side.getD ""
  , timestamp := tsMs }

/-- Response of POST /api/order: HTTP status plus the JSON payload fields. -/
structure PostResponse where
  status : Nat
  success : Bool
  error : Option String := none
  order : Option Order := none
deriving DecidableEq

/-- Handler for POST /api/order: validates truthiness of the four required
fields, on failure answers 400 without touching the store, on success pushes
the built order and answers 201 with it. -/
def postOrder (orders : List Order) (body : ReqBody) (env : Env) :
    PostResponse × List Order :=
  if missingRequired body then
    ({ status := 400, success := false, error := some "Missing required fields" }, orders)
  else
    let order := mkOrder body (generateId env.nowMs env.rand) env.tsMs
    ({ status := 201, success := true, order := some order }, orders ++ [order])

/-- Response of GET /api/orders. -/
structure ListResponse where
  status : Nat
  success : Bool
  orders : List Order
  count : Nat
deriving DecidableEq

/-- Handler for GET /api/orders: answers 200 with the whole array and its
length. -/
def getOrders (orders : List Order) : ListResponse :=
  { status := 200, success := true, orders := orders, count := orders.length }

/-- Response of DELETE /api/orders. -/
structure ClearResponse where
  status : Nat
  success : Bool
  message : String
deriving DecidableEq

/-- Handler for DELETE /api/orders: remembers the prior count, empties the
array, answers 200 with a confirmation message. -/
def deleteOrders (orders : List Order) : ClearResponse × List Order :=
  ({ status := 200
   , success := true
   , message := "Cleared " ++ toString orders.length ++ " orders" }, [])

/-- One request hitting the API surface. -/
inductive Request
  | post (body : ReqBody) (env : Env)
  | getList
  | clear

/-- Effect of one request on the server state. -/
def serverStep (orders : List Order) : Request → List Order
  | .post body env => (postOrder orders body env).2
  | .getList => orders
  | .clear => (deleteOrders orders).2

/-- Server state reached by a request sequence from process start (empty
array): exactly the reachable registry states. -/
def runServer (reqs : List Request) : List Order :=
  reqs.foldl serverStep []

/-- Running a sequence of POST /api/order requests, collecting the responses
and the final state. -/
def runPosts (orders : List Order) : List (ReqBody × Env) → List PostResponse × List Order
  | [] => ([], orders)
  | (body, env) :: rest =>
    let step := postOrder orders body env
    let tail := runPosts step.2 rest
    (step.1 :: tail.1, tail.2)

/-! Client-side order input, the Omit of id and timestamp submitted by the
form, and the react-hook-form validation rules of the form component. -/

/-- The client form data: an order minus the server-assigned id and
timestamp, with the enumerated field types of OrderStore.ts. -/
structure OrderInput where
  symbol : Symbol
  orderType : OrderType
  quantity : Int
  price : Option Int := none
  stopPrice : Option Int := none
  side : OrderSide
deriving DecidableEq

/-- JSON body the client sends for an input: `JSON.stringify` of the form
data, which never contains id or timestamp keys. -/
def OrderInput.toBody (i : OrderInput) : ReqBody :=
  { symbol := some i.symbol.str
  , orderType := some i.orderType.str
  , quantity := some i.quantity
  , price := i.price
  , stopPrice := i.stopPrice
  , side := some i.side.str }

/-- Client-side validation of the form component (react-hook-form rules):
quantity at least 1; price required and positive for Limit and Stop Limit;
stop price required and positive for Stop Limit.  The select fields always
carry a value.  (The 0.01 minimum of the form is `0 < p` on integer-modelled
numbers.) -/
def clientValid (i : OrderInput) : Bool :=
  1 ≤ i.quantity &&
  (match i.orderType with
   | .Limit | .StopLimit => match i.price with
     | some p => 0 < p
     | none => false
   | .Market => true) &&
  (match i.orderType with
   | .StopLimit => match i.stopPrice with
     | some p => 0 < p
     | none => false
   | _ => true)

/-! Client store embedding, from src/stores/OrderStore.ts. -/

/-- Observable state of the MobX store: the local orders array and the busy
flag. -/
structure StoreState where
  orders : List Order
  isLoading : Bool
deriving DecidableEq

namespace OrderStore

/-- Action addOrder: push one order onto the local array. -/
def addOrder (st : StoreState) (o : Order) : StoreState :=
  { st with orders := st.orders ++ [o] }

/-- Action setOrders: replace the local array wholesale. -/
def setOrders (st : StoreState) (os : List Order) : StoreState :=
  { st with orders := os }

/-- Action clearOrders: empty the local array. -/
def clearOrders (st : StoreState) : StoreState :=
  { st with orders := [] }

/-- Action setLoading: set the busy flag. -/
def setLoading (st : StoreState) (b : Bool) : StoreState :=
  { st with isLoading := b }

end OrderStore

/-- Outcome of a `fetch` call as the store observes it: the fetch (or an
awaited step before the json) may throw, otherwise a response arrives with
an `ok` flag and a `.json()` that either throws (`none`) or yields the typed
payload `α`. -/
inductive FetchOutcome (α : Type)
  | fetchThrow
  | response (ok : Bool) (json : Option α)
deriving DecidableEq

/-- Payload of a parsed POST /api/order response as submitOrder reads it:
`data.order`. -/
structure SubmitJson where
  order : Order
deriving DecidableEq

/-- Payload of a parsed GET /api/orders response as fetchOrders reads it:
`data.orders`, which may be absent or falsy (`none`). -/
structure OrdersJson where
  orders : Option (List Order)
deriving DecidableEq

namespace OrderStore

/-- Async action submitOrder: setLoading(true); try: fetch; if response.ok,
parse json, addOrder(data.order), resolve true; if not ok resolve false;
catch: resolve false; finally setLoading(false).  Returns the state right
after the initial setLoading, the resolved boolean, and the final state. -/
def submitOrder (st : StoreState) (net : FetchOutcome SubmitJson) :
    StoreState × Bool × StoreState :=
  let busy := setLoading st true
  let tryResult : Bool × StoreState :=
    match net with
    | .fetchThrow => (false, busy)
    | .response ok json =>
      if ok then
        match json with
        | none => (false, busy)
        | some data => (true, addOrder busy data.order)
      else (false, busy)
  (busy, tryResult.1, setLoading tryResult.2 false)

/-- Async action fetchOrders: setLoading(true); try: fetch; if response.ok,
parse json, setOrders(data.orders || []); catch: log only; finally
setLoading(false).  Returns the state right after the initial setLoading and
the final state. -/
def fetchOrders (st : StoreState) (net : FetchOutcome OrdersJson) :
    StoreState × StoreState :=
  let busy := setLoading st true
  let afterTry : StoreState :=
    match net with
    | .fetchThrow => busy
    | .response ok json =>
      if ok then
        match json with
        | none => busy
        | some data => setOrders busy (data.orders.getD [])
      else busy
  (busy, setLoading afterTry false)

end OrderStore

/-! Derived predicates used by the claims. -/

/-- The conditional-requirement rule on a stored order: a positive price for
Limit and Stop Limit, a positive stop price for Stop Limit. -/
def priceRuleHolds (o : Order) : Bool :=
  (if o.orderType == "Limit" || o.orderType == "Stop Limit" then
    match o.price with
    | some p => 0 < p
    | none => false
   else true) &&
  (if o.orderType == "Stop Limit" then
    match o.stopPrice with
    | some sp => 0 < sp
    | none => false
   else true)

/-- Truthiness of the four server-checked fields on a stored order. -/
def requiredFieldsTruthy (o : Order) : Bool :=
  o.symbol != "" && o.orderType != "" && o.quantity != 0 && o.side != ""

/-- Field-wise agreement of a stored order with a client input, ignoring the
server-assigned id and timestamp. -/
def matchesInput (i : OrderInput) (o : Order) : Prop :=
  o.symbol = i.symbol.str ∧ o.orderType = i.orderType.str ∧
    o.quantity = i.quantity ∧ o.price = i.price ∧
    o.stopPrice = i.stopPrice ∧ o.side = i.side.str

/-- A sample stored order used to instantiate witnesses. -/
def sampleOrder : Order :=
  { id := "order_1000_abc"
  , symbol := "NIFTY"
  , orderType := "Market"
  , quantity := 10
  , price := none
  , stopPrice := none
  , side := "Buy"
  , timestamp := 1000 }

/-! Helper lemmas. -/

lemma symbolStr_truthy (s : Symbol) : (s.str != "") = true := by
  cases s <;> decide

lemma orderTypeStr_truthy (t : OrderType) : (t.str != "") = true := by
  cases t <;> decide

lemma sideStr_truthy (sd : OrderSide) : (sd.str != "") = true := by
  cases sd <;> decide

lemma toBody_not_missing (i : OrderInput) (h : i.quantity ≠ 0) :
    missingRequired i.toBody = false := by
  simp [missingRequired, OrderInput.toBody, jsTruthyStr, jsTruthyNum,
    symbolStr_truthy, orderTypeStr_truthy, sideStr_truthy, h]

lemma clientValid_quantity_ne_zero (i : OrderInput) (h : clientValid i = true) :
    i.quantity ≠ 0 := by
  have h1 : (1 : Int) ≤ i.quantity :=
    of_decide_eq_true ((Bool.and_eq_true _ _).mp ((Bool.and_eq_true _ _).mp h).1).1
  omega

lemma serverStep_preserves_truthy (orders : List Order) (r : Request)
    (h : ∀ o ∈ orders, requiredFieldsTruthy o = true) :
    ∀ o ∈ serverStep orders r, requiredFieldsTruthy o = true := by
  cases r with
  | getList => exact h
  | clear => intro o ho; simp [serverStep, deleteOrders] at ho
  | post body env =>
    by_cases hm : missingRequired body
    · simpa [serverStep, postOrder, hm] using h
    · rw [Bool.not_eq_true] at hm
      intro o ho
      simp [serverStep, postOrder, hm] at ho
      rcases ho with ho | ho
      · exact h o ho
      · subst ho
        simp only [missingRequired, Bool.or_eq_false_iff, Bool.not_eq_false'] at hm
        obtain ⟨⟨⟨hs, ht⟩, hq⟩, hd⟩ := hm
        cases hsym : body.symbol with
        | none => rw [hsym] at hs; simp [jsTruthyStr] at hs
        | some s =>
          cases htyp : body.orderType with
          | none => rw [htyp] at ht; simp [jsTruthyStr] at ht
          | some t =>
            cases hqty : body.quantity with
            | none => rw [hqty] at hq; simp [jsTruthyNum] at hq
            | some q =>
              cases hside : body.side with
              | none => rw [hside] at hd; simp [jsTruthyStr] at hd
              | some d =>
                rw [hsym] at hs; rw [htyp] at ht; rw [hqty] at hq; rw [hside] at hd
                simp only [jsTruthyStr, jsTruthyNum] at hs ht hq hd
                simp [requiredFieldsTruthy, mkOrder, hsym, htyp, hqty, hside,
                  hs, ht, hq, hd]

lemma foldl_serverStep_truthy (reqs : List Request) (init : List Order)
    (h : ∀ o ∈ init, requiredFieldsTruthy o = true) :
    ∀ o ∈ reqs.foldl serverStep init, requiredFieldsTruthy o = true := by
  induction reqs generalizing init with
  | nil => exact h
  | cons r rest ih =>
    exact ih (serverStep init r) (serverStep_preserves_truthy init r h)

lemma runPosts_orders_sublist_ids (rs : List (ReqBody × Env)) (st : List Order)
    (hid : ∀ p ∈ rs, p.1.id = none) :
    List.Sublist (((runPosts st rs).1.filterMap PostResponse.order).map Order.id)
      (rs.map fun p => generateId p.2.nowMs p.2.rand) := by
  induction rs generalizing st with
  | nil => simp [runPosts]
  | cons p rest ih =>
    obtain ⟨body, env⟩ := p
    have hbody : body.id = none := hid (body, env) (List.mem_cons_self _ _)
    have htail := ih (postOrder st body env).2
      (fun q hq => hid q (List.mem_cons_of_mem _ hq))
    by_cases hm : missingRequired body
    · simpa [runPosts, postOrder, hm] using List.Sublist.cons _ htail
    · rw [Bool.not_eq_true] at hm
      simpa [runPosts, postOrder, hm, mkOrder, hbody] using
        List.Sublist.cons₂ (generateId env.nowMs env.rand) htail

lemma runPosts_orders_sublist_timestamps (rs : List (ReqBody × Env)) (st : List Order) :
    List.Sublist
      (((runPosts st rs).1.filterMap PostResponse.order).map Order.timestamp)
      (rs.map fun p => p.2.tsMs) := by
  induction rs generalizing st with
  | nil => simp [runPosts]
  | cons p rest ih =>
    obtain ⟨body, env⟩ := p
    have htail := ih (postOrder st body env).2
    by_cases hm : missingRequired body
    · simpa [runPosts, postOrder, hm] using List.Sublist.cons _ htail
    · rw [Bool.not_eq_true] at hm
      simpa [runPosts, postOrder, hm, mkOrder] using
        List.Sublist.cons₂ env.tsMs htail

lemma runPosts_accepted_state (rs : List (ReqBody × Env)) (st : List Order)
    (h : ∀ p ∈ rs, missingRequired p.1 = false) :
    (runPosts st rs).2 =
      st ++ rs.map (fun p => mkOrder p.1 (generateId p.2.nowMs p.2.rand) p.2.tsMs) := by
  induction rs generalizing st with
  | nil => simp [runPosts]
  | cons p rest ih =>
    obtain ⟨body, env⟩ := p
    have hb : missingRequired body = false := h (body, env) (List.mem_cons_self _ _)
    simp only [runPosts]
    rw [ih ((postOrder st body env).2)
      (fun q hq => h q (List.mem_cons_of_mem _ hq))]
    simp [postOrder, hb, List.append_assoc]

lemma matchesInput_mkOrder (i : OrderInput) (gid : String) (ts : Nat) :
    matchesInput i (mkOrder i.toBody gid ts) :=
  ⟨rfl, rfl, rfl, rfl, rfl, rfl⟩

/-! Claim theorems. -/

/-- C3 counterexample: a request body that contains all four required keys
(`symbol`, `orderType`, `quantity`, `side`) but whose `quantity` is 0 is
nevertheless rejected with 400 "Missing required fields", refuting the
claimed "400 if and only if at least one of the four required fields is
missing from the request body". -/
theorem post_rejects_present_zero_quantity :
    let b : ReqBody :=
      { symbol := some "NIFTY", orderType := some "Market",
        quantity := some 0, side := some "Buy" }
    (b.symbol.isSome ∧ b.orderType.isSome ∧ b.quantity.isSome ∧ b.side.isSome) ∧
    (postOrder [] b ⟨1000, "abc123xyz", 1000⟩).1.status = 400 ∧
    (postOrder [] b ⟨1000, "abc123xyz", 1000⟩).1.error = some "Missing required fields" ∧
    (postOrder [] b ⟨1000, "abc123xyz", 1000⟩).2 = [] := by
  decide

/-- C3 amended: POST /api/order answers 400 with error "Missing required
fields" and an unchanged registry exactly when one of the four required
fields is absent or JavaScript-falsy (empty string, zero); otherwise it
answers 201 with success and the stored record appended to the registry. -/
theorem post_validation_characterization (st : List Order) (body : ReqBody) (env : Env) :
    ((postOrder st body env).1.status = 400 ↔ missingRequired body = true) ∧
    (missingRequired body = true →
      postOrder st body env =
        ({ status := 400, success := false, error := some "Missing required fields"
         , order := none }, st)) ∧
    (missingRequired body = false →
      (postOrder st body env).1.status = 201 ∧
      (postOrder st body env).1.success = true ∧
      ∀ o, (postOrder st body env).1.order = some o →
        (postOrder st body env).2 = st ++ [o]) := by
  by_cases hm : missingRequired body
  · refine ⟨by simp [postOrder, hm], fun _ => by simp [postOrder, hm], fun h => by simp [h] at hm⟩
  · refine ⟨by simp [postOrder, hm], fun h => absurd h hm, fun _ => ?_⟩
    refine ⟨by simp [postOrder, hm], by simp [postOrder, hm], fun o ho => ?_⟩
    simp only [postOrder, hm, Bool.false_eq_true, if_false, Option.some.injEq] at ho ⊢
    rw [ho]

/-- C3 witness: the amended characterization evaluated on a body missing
only `side`, which is rejected with 400 and an untouched registry. -/
theorem post_validation_characterization_witness :
    postOrder []
        { symbol := some "NIFTY", orderType := some "Market"
        , quantity := some 10, side := none }
        ⟨1000, "abc123xyz", 1000⟩ =
      ({ status := 400, success := false, error := some "Missing required fields"
       , order := none }, []) :=
  (post_validation_characterization []
    { symbol := some "NIFTY", orderType := some "Market"
    , quantity := some 10, side := none }
    ⟨1000, "abc123xyz", 1000⟩).2.1 (by decide)

/-- C1 counterexample: a create request whose body carries an `id` field is
accepted, and the stored and returned order keeps the client-supplied id,
which differs from the server generator's output for that request; so
client-supplied `id` values do appear in the stored record. -/
theorem client_id_survives_counterexample :
    let b : ReqBody :=
      { id := some "client-id", symbol := some "NIFTY", orderType := some "Market"
      , quantity := some 10, side := some "Buy", timestamp := some 9999 }
    let r := postOrder [] b ⟨1000, "abc123xyz", 2000⟩
    r.1.status = 201 ∧
    r.2.map Order.id = ["client-id"] ∧
    (r.1.order.map Order.id) = some "client-id" ∧
    "client-id" ≠ generateId 1000 "abc123xyz" := by
  decide

/-- C1 amended: on every accepted create, the stored and returned order is
the same record, its `timestamp` is the server clock reading regardless of
any body `timestamp`; its `id` is the server generator's output when the
body has no `id` key, but a body `id` overrides the generated one (the
spread in the handler is written after the `id:` property). -/
theorem post_id_timestamp_assignment (st : List Order) (body : ReqBody) (env : Env)
    (hv : missingRequired body = false) :
    (postOrder st body env).1.status = 201 ∧
    (postOrder st body env).1.order.isSome = true ∧
    ∀ o, (postOrder st body env).1.order = some o →
      (postOrder st body env).2 = st ++ [o] ∧
      o.timestamp = env.tsMs ∧
      (body.id = none → o.id = generateId env.nowMs env.rand) ∧
      ∀ cid, body.id = some cid → o.id = cid := by
  have hpost : postOrder st body env =
      ({ status := 201, success := true, error := none
       , order := some (mkOrder body (generateId env.nowMs env.rand) env.tsMs) },
       st ++ [mkOrder body (generateId env.nowMs env.rand) env.tsMs]) := by
    simp [postOrder, hv]
  rw [hpost]
  refine ⟨rfl, rfl, fun o ho => ?_⟩
  simp only [Option.some.injEq] at ho
  subst ho
  refine ⟨rfl, rfl, fun h => ?_, fun cid h => ?_⟩
  · simp [mkOrder, h]
  · simp [mkOrder, h]

/-- C1 witness: the amended assignment evaluated on a body without an `id`
key and with a bogus `timestamp`: the stored order gets the generated id and
the server clock reading. -/
theorem post_id_timestamp_assignment_witness :
    sampleOrder.timestamp = 1000 ∧ sampleOrder.id = generateId 1000 "abc" := by
  have h := post_id_timestamp_assignment []
    { symbol := some "NIFTY", orderType := some "Market"
    , quantity := some 10, side := some "Buy", timestamp := some 9999 }
    ⟨1000, "abc", 1000⟩ (by decide)
  have h2 := h.2.2 sampleOrder (by decide)
  exact ⟨h2.2.1, h2.2.2.1 rfl⟩

/-- C9 counterexample: a Market-order create whose body supplies `price` is
accepted and the stored and returned order carries that price, refuting
"the stored and returned order has no `price` value even when the request
body supplies one". -/
theorem market_price_survives_counterexample :
    let b : ReqBody :=
      { symbol := some "NIFTY", orderType := some "Market"
      , quantity := some 10, price := some 100, side := some "Buy" }
    let r := postOrder [] b ⟨1000, "abc123xyz", 1000⟩
    r.1.status = 201 ∧
    r.2.map Order.orderType = ["Market"] ∧
    r.2.map Order.price = [some 100] ∧
    (r.1.order.map Order.price) = some (some 100) := by
  decide

/-- C9 amended: the server copies the body's `price` and `stopPrice` into
the stored and returned order unchanged, regardless of `orderType`; in
particular a Market order stores a supplied price, and the price is absent
only when the body omits it. -/
theorem post_price_passthrough (st : List Order) (body : ReqBody) (env : Env)
    (hv : missingRequired body = false) :
    (postOrder st body env).1.status = 201 ∧
    ∀ o, (postOrder st body env).1.order = some o →
      o.price = body.price ∧ o.stopPrice = body.stopPrice ∧
      (postOrder st body env).2 = st ++ [o] := by
  have hpost : postOrder st body env =
      ({ status := 201, success := true, error := none
       , order := some (mkOrder body (generateId env.nowMs env.rand) env.tsMs) },
       st ++ [mkOrder body (generateId env.nowMs env.rand) env.tsMs]) := by
    simp [postOrder, hv]
  rw [hpost]
  refine ⟨rfl, fun o ho => ?_⟩
  simp only [Option.some.injEq] at ho
  subst ho
  exact ⟨rfl, rfl, rfl⟩

/-- C9 witness: the pass-through evaluated on a Market body carrying
price 100: the stored order keeps price 100. -/
theorem post_price_passthrough_witness :
    ({ sampleOrder with price := some 100 } : Order).price = some 100 ∧
    ({ sampleOrder with price := some 100 } : Order).stopPrice = none := by
  have h := post_price_passthrough []
    { symbol := some "NIFTY", orderType := some "Market"
    , quantity := some 10, price := some 100, side := some "Buy" }
    ⟨1000, "abc", 1000⟩ (by decide)
  have h2 := h.2 { sampleOrder with price := some 100 } (by decide)
  exact ⟨h2.1, h2.2.1⟩

/-- C2 counterexample: one accepted create request reaches a registry state
holding a Limit order with no `price`, refuting the claimed invariant that
every registry order satisfies the conditional-requirement rule. -/
theorem limit_without_price_reachable :
    ¬ ∀ o ∈ runServer
        [Request.post
          { symbol := some "NIFTY", orderType := some "Limit"
          , quantity := some 10, side := some "Buy" }
          ⟨1000, "abc123xyz", 1000⟩],
        priceRuleHolds o = true := by
  decide

/-- C2 amended: the server enforces no price rule, so the
conditional-requirement rule is not an invariant of the registry; the
invariant that does hold of every reachable registry state is that every
stored order has JavaScript-truthy `symbol`, `orderType`, `quantity` and
`side`. -/
theorem runServer_required_fields_invariant (reqs : List Request) :
    ∀ o ∈ runServer reqs, requiredFieldsTruthy o = true :=
  foldl_serverStep_truthy reqs [] (by simp)

/-- C2 witness: the truthy-fields invariant evaluated on the registry
reached by one accepted create. -/
theorem runServer_required_fields_invariant_witness :
    requiredFieldsTruthy sampleOrder = true :=
  runServer_required_fields_invariant
    [Request.post
      { symbol := some "NIFTY", orderType := some "Market"
      , quantity := some 10, side := some "Buy" }
      ⟨1000, "abc", 1000⟩]
    sampleOrder (by decide)

/-- C8: DELETE /api/orders empties the registry and answers 200 with
success and the message "Cleared N orders" for N the prior number of
orders; a list performed on the cleared registry returns zero orders and
count 0, for every prior registry state. -/
theorem clear_then_list (st : List Order) :
    deleteOrders st =
      ({ status := 200, success := true
       , message := "Cleared " ++ toString st.length ++ " orders" }, []) ∧
    getOrders (deleteOrders st).2 =
      { status := 200, success := true, orders := [], count := 0 } :=
  ⟨rfl, rfl⟩

lemma forall2_matches_zipWith (inputs : List OrderInput) (envs : List Env)
    (hlen : envs.length = inputs.length) :
    List.Forall₂ matchesInput inputs
      (List.zipWith (fun i e => mkOrder i.toBody (generateId e.nowMs e.rand) e.tsMs)
        inputs envs) := by
  induction inputs generalizing envs with
  | nil => simp
  | cons i rest ih =>
    cases envs with
    | nil => simp at hlen
    | cons e es =>
      exact List.Forall₂.cons (matchesInput_mkOrder i _ _)
        (ih es (by simpa using hlen))

lemma runPosts_valid_inputs_state (inputs : List OrderInput) (envs : List Env)
    (st : List Order)
    (hlen : envs.length = inputs.length)
    (hval : ∀ i ∈ inputs, clientValid i = true) :
    (runPosts st (List.zipWith (fun i e => (i.toBody, e)) inputs envs)).2 =
      st ++ List.zipWith
        (fun i e => mkOrder i.toBody (generateId e.nowMs e.rand) e.tsMs)
        inputs envs := by
  induction inputs generalizing envs st with
  | nil => cases envs <;> simp [runPosts]
  | cons i rest ih =>
    cases envs with
    | nil => simp at hlen
    | cons e es =>
      have hm : missingRequired i.toBody = false :=
        toBody_not_missing i
          (clientValid_quantity_ne_zero i (hval i (List.mem_cons_self _ _)))
      simp only [List.zipWith_cons_cons, runPosts]
      rw [ih es _ (by simpa using hlen)
        (fun j hj => hval j (List.mem_cons_of_mem _ hj))]
      simp [postOrder, hm, List.append_assoc]

/-- C4 counterexample: two accepted create requests whose bodies both carry
the client id "dup" both return an order with id "dup", so the returned ids
are not pairwise distinct across one process lifetime. -/
theorem duplicate_returned_ids_counterexample :
    let b : ReqBody :=
      { id := some "dup", symbol := some "NIFTY", orderType := some "Market"
      , quantity := some 10, side := some "Buy" }
    let r := runPosts [] [(b, ⟨1000, "abc123xyz", 1000⟩), (b, ⟨2000, "zzz999www", 2000⟩)]
    r.1.map PostResponse.status = [201, 201] ∧
    (r.1.filterMap PostResponse.order).map Order.id = ["dup", "dup"] ∧
    ¬ ((r.1.filterMap PostResponse.order).map Order.id).Pairwise (· ≠ ·) := by
  decide

/-- C4 amended: restricted to request bodies that carry no `id` key, and
assuming the per-request generator outputs are pairwise distinct and the
per-request clock readings non-decreasing (the code draws both from the
wall clock and a random source and enforces neither), the accepted create
responses of one process lifetime have pairwise distinct order ids and
non-decreasing order timestamps. -/
theorem accepted_ids_unique_timestamps_monotone (rs : List (ReqBody × Env))
    (hid : ∀ p ∈ rs, p.1.id = none)
    (hgen : (rs.map fun p => generateId p.2.nowMs p.2.rand).Pairwise (· ≠ ·))
    (hts : (rs.map fun p => p.2.tsMs).Pairwise (· ≤ ·)) :
    (((runPosts [] rs).1.filterMap PostResponse.order).map Order.id).Pairwise (· ≠ ·) ∧
    (((runPosts [] rs).1.filterMap PostResponse.order).map
        Order.timestamp).Pairwise (· ≤ ·) :=
  ⟨List.Pairwise.sublist (runPosts_orders_sublist_ids rs [] hid) hgen,
   List.Pairwise.sublist (runPosts_orders_sublist_timestamps rs []) hts⟩

/-- C4 witness: the amended statement evaluated on two id-less requests with
distinct generator inputs and increasing clock readings. -/
theorem accepted_ids_unique_timestamps_monotone_witness :
    (((runPosts []
        [({ symbol := some "NIFTY", orderType := some "Market"
          , quantity := some 10, side := some "Buy" }, ⟨1000, "abc123xyz", 1000⟩),
         ({ symbol := some "TCS", orderType := some "Market"
          , quantity := some 5, side := some "Sell" }, ⟨2000, "zzz999www", 2500⟩)]).1.filterMap
          PostResponse.order).map Order.id).Pairwise (· ≠ ·) ∧
    (((runPosts []
        [({ symbol := some "NIFTY", orderType := some "Market"
          , quantity := some 10, side := some "Buy" }, ⟨1000, "abc123xyz", 1000⟩),
         ({ symbol := some "TCS", orderType := some "Market"
          , quantity := some 5, side := some "Sell" }, ⟨2000, "zzz999www", 2500⟩)]).1.filterMap
          PostResponse.order).map Order.timestamp).Pairwise (· ≤ ·) :=
  accepted_ids_unique_timestamps_monotone _ (by decide) (by decide) (by decide)

/-- C5: submitting any sequence of client-valid order inputs and then
listing yields exactly as many orders as inputs, reported count included,
in submission order, each stored order matching its input field-wise modulo
the server-assigned id and timestamp. -/
theorem round_trip_listing (inputs : List OrderInput) (envs : List Env)
    (hlen : envs.length = inputs.length)
    (hval : ∀ i ∈ inputs, clientValid i = true) :
    (getOrders
        (runPosts [] (List.zipWith (fun i e => (i.toBody, e)) inputs envs)).2).count
      = inputs.length ∧
    (getOrders
        (runPosts [] (List.zipWith (fun i e => (i.toBody, e)) inputs envs)).2).orders.length
      = inputs.length ∧
    List.Forall₂ matchesInput inputs
      (getOrders
        (runPosts [] (List.zipWith (fun i e => (i.toBody, e)) inputs envs)).2).orders := by
  have hstate := runPosts_valid_inputs_state inputs envs [] hlen hval
  have hcount :
      (runPosts [] (List.zipWith (fun i e => (i.toBody, e)) inputs envs)).2.length
        = inputs.length := by
    rw [hstate]
    simp [List.length_zipWith, hlen]
  refine ⟨hcount, hcount, ?_⟩
  show List.Forall₂ matchesInput inputs
    (runPosts [] (List.zipWith (fun i e => (i.toBody, e)) inputs envs)).2
  rw [hstate, List.nil_append]
  exact forall2_matches_zipWith inputs envs hlen

/-- C5 witness: the round trip evaluated on one valid Market input. -/
theorem round_trip_listing_witness :
    (getOrders
        (runPosts [] (List.zipWith (fun i e => (i.toBody, e))
          [({ symbol := .NIFTY, orderType := .Market, quantity := 10
            , side := .Buy } : OrderInput)]
          [({ nowMs := 1000, rand := "abc", tsMs := 1000 } : Env)])).2).count = 1 ∧
    (getOrders
        (runPosts [] (List.zipWith (fun i e => (i.toBody, e))
          [({ symbol := .NIFTY, orderType := .Market, quantity := 10
            , side := .Buy } : OrderInput)]
          [({ nowMs := 1000, rand := "abc", tsMs := 1000 } : Env)])).2).orders.length = 1 ∧
    List.Forall₂ matchesInput
      [({ symbol := .NIFTY, orderType := .Market, quantity := 10
        , side := .Buy } : OrderInput)]
      (getOrders
        (runPosts [] (List.zipWith (fun i e => (i.toBody, e))
          [({ symbol := .NIFTY, orderType := .Market, quantity := 10
            , side := .Buy } : OrderInput)]
          [({ nowMs := 1000, rand := "abc", tsMs := 1000 } : Env)])).2).orders :=
  round_trip_listing _ _ rfl (by decide)

/-- C6: submitOrder sets the busy flag at the start and clears it on every
exit path; on an ok response with a parsed body it appends exactly the
server-returned order to the tail of the local list and resolves true; on a
thrown fetch, a thrown body parse, or a non-ok status it resolves false with
the local list unchanged. -/
theorem submitOrder_spec (st : StoreState) (net : FetchOutcome SubmitJson) :
    (OrderStore.submitOrder st net).1.isLoading = true ∧
    (OrderStore.submitOrder st net).2.2.isLoading = false ∧
    (∀ data, net = .response true (some data) →
      (OrderStore.submitOrder st net).2.1 = true ∧
      (OrderStore.submitOrder st net).2.2.orders = st.orders ++ [data.order]) ∧
    (net = .fetchThrow →
      (OrderStore.submitOrder st net).2.1 = false ∧
      (OrderStore.submitOrder st net).2.2.orders = st.orders) ∧
    (∀ ok, net = .response ok none →
      (OrderStore.submitOrder st net).2.1 = false ∧
      (OrderStore.submitOrder st net).2.2.orders = st.orders) ∧
    (∀ j, net = .response false j →
      (OrderStore.submitOrder st net).2.1 = false ∧
      (OrderStore.submitOrder st net).2.2.orders = st.orders) := by
  cases net with
  | fetchThrow =>
    simp [OrderStore.submitOrder, OrderStore.setLoading, OrderStore.addOrder]
  | response ok json =>
    cases ok <;> cases json <;>
      simp [OrderStore.submitOrder, OrderStore.setLoading, OrderStore.addOrder]

/-- C6 witness: submitOrder on an empty local list receiving an ok response
with the sample order resolves true and ends with exactly that order. -/
theorem submitOrder_spec_witness :
    (OrderStore.submitOrder ⟨[], false⟩
        (.response true (some ⟨sampleOrder⟩))).2.1 = true ∧
    (OrderStore.submitOrder ⟨[], false⟩
        (.response true (some ⟨sampleOrder⟩))).2.2.orders = [sampleOrder] :=
  (submitOrder_spec ⟨[], false⟩
    (.response true (some ⟨sampleOrder⟩))).2.2.1 ⟨sampleOrder⟩ rfl

/-- C7: fetchOrders sets the busy flag at the start and clears it on every
exit path; on an ok response whose parsed body carries an orders array it
replaces the local list wholesale with that array; on a thrown fetch, a
thrown body parse, or a non-ok status the local list is unchanged. -/
theorem fetchOrders_spec (st : StoreState) (net : FetchOutcome OrdersJson) :
    (OrderStore.fetchOrders st net).1.isLoading = true ∧
    (OrderStore.fetchOrders st net).2.isLoading = false ∧
    (∀ l, net = .response true (some ⟨some l⟩) →
      (OrderStore.fetchOrders st net).2.orders = l) ∧
    (net = .fetchThrow →
      (OrderStore.fetchOrders st net).2.orders = st.orders) ∧
    (∀ ok, net = .response ok none →
      (OrderStore.fetchOrders st net).2.orders = st.orders) ∧
    (∀ j, net = .response false j →
      (OrderStore.fetchOrders st net).2.orders = st.orders) := by
  cases net with
  | fetchThrow =>
    simp [OrderStore.fetchOrders, OrderStore.setLoading, OrderStore.setOrders]
  | response ok json =>
    cases ok with
    | false =>
      cases json <;>
        simp [OrderStore.fetchOrders, OrderStore.setLoading, OrderStore.setOrders]
    | true =>
      cases json with
      | none =>
        simp [OrderStore.fetchOrders, OrderStore.setLoading, OrderStore.setOrders]
      | some data =>
        obtain ⟨os⟩ := data
        cases os <;>
          simp [OrderStore.fetchOrders, OrderStore.setLoading, OrderStore.setOrders]

/-- C7 witness: fetchOrders on an empty local list receiving an ok response
listing the sample order replaces the local list with that array. -/
theorem fetchOrders_spec_witness :
    (OrderStore.fetchOrders ⟨[], false⟩
        (.response true (some ⟨some [sampleOrder]⟩))).2.orders = [sampleOrder] :=
  (fetchOrders_spec ⟨[], false⟩
    (.response true (some ⟨some [sampleOrder]⟩))).2.2.1 [sampleOrder] rfl

/-- C10: when fetchOrders receives an ok response whose body parses but has
no truthy orders field, the local list is replaced with the empty list, for
every prior store state. -/
theorem fetchOrders_empty_payload_replaces (st : StoreState) :
    (OrderStore.fetchOrders st (.response true (some ⟨none⟩))).2.orders = [] :=
  rfl

end OrdersProject
